import Mathlib

/-!
Verification development for the optopodi contribution-metrics tool.

The definitions below are shallow embeddings of the Rust source:
machine integers (`u64`, `usize`) become `Nat`, `HashMap` counters become
functions updated pointwise, fallible code returns `Except`/`Option`, and a
Rust panic is modelled by an explicit error/`none` branch.  Each claim of the
specification is stated and settled as a theorem about these definitions.
-/

namespace Optopodi

/-- Modelled from the spec: the helper `crate::util::percentage` is referenced
by `src/report/repo_info.rs`, `src/report/repo_participant.rs` and
`src/report/high_contributor.rs`, but the `util.rs` of that code revision is
not among the provided source files (only the callers are).  The spec states:
"percentage(x, 0) = 0 for all x (avoids division by zero when a repository has
no PRs). Percentages use integer floor division (`x*100/denominator`), not
banker's rounding." -/
def percentage (n denominator : Nat) : Nat :=
  if denominator = 0 then 0 else n * 100 / denominator

/-- `RepoParticipant` from `src/report/repo_participant.rs` (one parsed row of
`repo-participants.csv`). -/
structure RepoParticipant where
  row : Nat
  participant : String
  repo : String
  participated_in : Nat
  authored : Nat
  reviewed : Nat
  resolved : Nat
deriving DecidableEq

/-- `RepoParticipant::reviewed_or_resolved` from
`src/report/repo_participant.rs` lines 104-108. -/
def RepoParticipant.reviewed_or_resolved (p : RepoParticipant) : Nat :=
  max p.reviewed p.resolved

/-- `RepoInfo` from `src/report/repo_info.rs` (one parsed row of
`repo-infos.csv`).  The Rust field `end` is spelled `end_` because `end` is a
Lean keyword. -/
structure RepoInfo where
  row : Nat
  org : String
  repo : String
  num_prs : Nat
  num_opened : Nat
  num_closed : Nat
  start : String
  end_ : String
deriving DecidableEq

/-- `HighContributorConfig` from `src/report.rs` lines 53-76. -/
structure HighContributorConfig where
  high_reviewer_min_percentage : Nat
  high_reviewer_min_prs : Nat
  reviewer_saturation_threshold : Nat
  author_saturation_threshold : Nat
  high_participant_min_percentage : Nat
  high_participant_min_prs : Nat
  high_author_min_percentage : Nat
  high_author_min_prs : Nat
  high_contributor_categories_threshold : Nat
deriving DecidableEq

/-- `GithubConfig` from `src/report.rs` lines 41-45. -/
structure GithubConfig where
  org : String
  repos : List String
deriving DecidableEq

/-- `ReportConfig` from `src/report.rs` lines 27-32.  The `data_source` field
(date window) is not consulted by any of the classifier functions embedded
here and is omitted. -/
structure ReportConfig where
  github : GithubConfig
  high_contributor : HighContributorConfig
deriving DecidableEq

/-- `RepoInfo::is_high_contributor` from `src/report/repo_info.rs` lines
94-117.  The Rust `bool as u64` casts are `Bool.toNat`. -/
def RepoInfo.is_high_contributor (self : RepoInfo) (config : ReportConfig)
    (participant : RepoParticipant) : Bool :=
  let hc := config.high_contributor
  let participated_in_percentage := percentage participant.participated_in self.num_prs
  let authored_percentage := percentage participant.authored self.num_prs
  let reviewed_or_resolved_percentage :=
    percentage participant.reviewed_or_resolved self.num_prs
  let high_reviewer : Bool :=
    decide (reviewed_or_resolved_percentage > hc.high_reviewer_min_percentage)
      || decide (participant.reviewed_or_resolved > hc.high_reviewer_min_prs)
  let high_activity : Bool :=
    decide (participated_in_percentage > hc.high_participant_min_percentage)
      && decide (participant.participated_in > hc.high_participant_min_prs)
  let high_author : Bool :=
    decide (authored_percentage > hc.high_author_min_percentage)
      && decide (participant.authored > hc.high_author_min_prs)
  let high_total := high_reviewer.toNat + high_activity.toNat + high_author.toNat
  decide (high_total ≥ hc.high_contributor_categories_threshold)

lemma toNat_decide_or (p q : Prop) [Decidable p] [Decidable q] :
    (decide p || decide q).toNat = if p ∨ q then 1 else 0 := by
  by_cases hp : p <;> by_cases hq : q <;> simp [hp, hq]

lemma toNat_decide_and (p q : Prop) [Decidable p] [Decidable q] :
    (decide p && decide q).toNat = if p ∧ q then 1 else 0 := by
  by_cases hp : p <;> by_cases hq : q <;> simp [hp, hq]

/-- Claim C1: `is_high_contributor` computes `high_reviewer` as
(reviewed_or_resolved percentage exceeds the reviewer percent threshold) OR
(reviewed_or_resolved raw count exceeds the reviewer count threshold), where
`reviewed_or_resolved = max(reviewed, resolved)`; `high_activity` as
(participated_in percentage exceeds its threshold) AND (raw count exceeds its
threshold); `high_author` analogously with AND; and returns `true` iff the
number of true flags is at least `high_contributor_categories_threshold`. -/
theorem is_high_contributor_spec (config : ReportConfig) (self : RepoInfo)
    (participant : RepoParticipant) :
    self.is_high_contributor config participant = true ↔
      (if percentage (max participant.reviewed participant.resolved) self.num_prs >
            config.high_contributor.high_reviewer_min_percentage ∨
          max participant.reviewed participant.resolved >
            config.high_contributor.high_reviewer_min_prs then 1 else 0)
        + (if percentage participant.participated_in self.num_prs >
              config.high_contributor.high_participant_min_percentage ∧
            participant.participated_in >
              config.high_contributor.high_participant_min_prs then 1 else 0)
        + (if percentage participant.authored self.num_prs >
              config.high_contributor.high_author_min_percentage ∧
            participant.authored >
              config.high_contributor.high_author_min_prs then 1 else 0)
        ≥ config.high_contributor.high_contributor_categories_threshold := by
  simp only [RepoInfo.is_high_contributor, RepoParticipant.reviewed_or_resolved,
    toNat_decide_or, toNat_decide_and, decide_eq_true_eq]

/-- Counterexample to claim C5 as stated: the claim asserts both
`percentage(n, 0) = 0` for every `n ≥ 0` and `percentage(n, n) = 100` for
every `n`; at `n = 0` the function returns `0`, not `100`. -/
theorem percentage_diag_counterexample : ¬ percentage 0 0 = 100 := by decide

/-- Claim C5 (amended): `percentage n 0 = 0` for every `n`;
`percentage 0 d = 0` for every `d > 0`; `percentage n n = 100` for every
`n > 0` (not for `n = 0`, where the division-by-zero guard yields `0`); and
for `d > 0` the value is the integer floor of `n*100/d`. -/
theorem percentage_spec (n d : Nat) :
    percentage n 0 = 0 ∧ (0 < d → percentage 0 d = 0) ∧
      (0 < n → percentage n n = 100) ∧ (0 < d → percentage n d = n * 100 / d) := by
  refine ⟨by simp [percentage], fun hd => ?_, fun hn => ?_, fun hd => ?_⟩
  · simp [percentage, Nat.pos_iff_ne_zero.mp hd]
  · simp only [percentage, Nat.pos_iff_ne_zero.mp hn, if_false]
    exact Nat.mul_div_cancel_left 100 hn
  · simp [percentage, Nat.pos_iff_ne_zero.mp hd]

/-- Witness for `percentage_spec` at concrete inputs. -/
theorem percentage_spec_witness :
    percentage 7 0 = 0 ∧ percentage 0 3 = 0 ∧ percentage 7 7 = 100 ∧
      percentage 7 3 = 7 * 100 / 3 :=
  ⟨(percentage_spec 7 3).1, (percentage_spec 7 3).2.1 (by decide),
    (percentage_spec 7 7).2.2.1 (by decide), (percentage_spec 7 3).2.2.2 (by decide)⟩

/-- `RepoParticipants` from `src/report/repo_participant.rs` lines 13-16:
the parsed rows of `repo-participants.csv` (robot logins already dropped by
the parser). -/
structure RepoParticipants where
  participants : List RepoParticipant
deriving DecidableEq

/-- `RepoParticipants::in_repo` from `src/report/repo_participant.rs` lines
94-101: the participants whose `repo` field equals the repository of
`repo_info`. -/
def RepoParticipants.in_repo (self : RepoParticipants) (repo_info : RepoInfo) :
    List RepoParticipant :=
  self.participants.filter fun p => p.repo == repo_info.repo

/-- The order in which `saturation` (`src/report/high_contributor.rs` lines
146-152) visits participants: `participants.sort()` sorts the
`(count, login)` pairs ascending lexicographically and `participants.reverse()`
flips that, so earlier elements have a larger count, with count ties broken by
login descending.  `saturationOrder a b` says `a` may come before `b`. -/
def saturationOrder (a b : Nat × String) : Prop :=
  b.1 < a.1 ∨ (a.1 = b.1 ∧ b.2 ≤ a.2)

instance : DecidableRel saturationOrder := fun a b => by
  unfold saturationOrder; infer_instance

instance : IsTotal (Nat × String) saturationOrder where
  total a b := by
    rcases Nat.lt_trichotomy a.1 b.1 with h | h | h
    · exact Or.inr (Or.inl h)
    · rcases le_total a.2 b.2 with hs | hs
      · exact Or.inr (Or.inr ⟨h.symm, hs⟩)
      · exact Or.inl (Or.inr ⟨h, hs⟩)
    · exact Or.inl (Or.inl h)

instance : IsTrans (Nat × String) saturationOrder where
  trans a b c hab hbc := by
    rcases hab with h1 | ⟨e1, s1⟩ <;> rcases hbc with h2 | ⟨e2, s2⟩
    · exact Or.inl (h2.trans h1)
    · exact Or.inl (e2 ▸ h1)
    · exact Or.inl (by rw [e1]; exact h2)
    · exact Or.inr ⟨e1.trans e2, s2.trans s1⟩

/-- The sorting step of `saturation`: `participants.sort()` followed by
`participants.reverse()`.  Since `saturationOrder` is total, transitive and
(up to equality of pairs) antisymmetric, every sort that orders the list by
descending `(count, login)` yields this same list; we use insertion sort. -/
def sortDescending (l : List (Nat × String)) : List (Nat × String) :=
  List.insertionSort saturationOrder l

/-- The accumulation loop of `saturation` (`src/report/high_contributor.rs`
lines 154-164), before formatting: starting from `running_total = acc`, take
each `(count, participant)` pair, add `count` to the running total, and stop
right after the first pair that makes the running total strictly exceed
`target`. -/
def satPrefix (target : Nat) : Nat → List (Nat × String) → List (Nat × String)
  | _, [] => []
  | acc, (count, participant) :: rest =>
    (count, participant) ::
      (if target < acc + count then [] else satPrefix target (acc + count) rest)

/-- `format!("{} ({}%)", participant, percent)` with
`percent = percentage(count, repo_info.num_prs)`
(`src/report/high_contributor.rs` lines 159-160). -/
def fmt_entry (num_prs : Nat) (e : Nat × String) : String :=
  e.2 ++ " (" ++ toString (percentage e.1 num_prs) ++ "%)"

/-- `Report::saturation` from `src/report/high_contributor.rs` lines 139-167.
Returns the joined `"login (percent%)"` entries and their number. -/
def saturation (repo_participants : RepoParticipants)
    (saturation_threshold_percentage : Nat) (repo_info : RepoInfo)
    (key : RepoParticipant → Nat) : String × Nat :=
  let participants : List (Nat × String) :=
    (repo_participants.in_repo repo_info).map fun p => (key p, p.participant)
  let sorted := sortDescending participants
  let target := repo_info.num_prs * saturation_threshold_percentage / 100
  let output := (satPrefix target 0 sorted).map (fmt_entry repo_info.num_prs)
  (String.intercalate ", " output, output.length)

/-- The metric total of a prefix: the sum of the counts of its entries. -/
def sumCounts (l : List (Nat × String)) : Nat := (l.map Prod.fst).sum

/-- The `participants` vector built at the start of `saturation`. -/
def satParticipants (rp : RepoParticipants) (info : RepoInfo)
    (key : RepoParticipant → Nat) : List (Nat × String) :=
  (rp.in_repo info).map fun p => (key p, p.participant)

/-- The sorted `participants` vector of `saturation`. -/
def satSorted (rp : RepoParticipants) (info : RepoInfo)
    (key : RepoParticipant → Nat) : List (Nat × String) :=
  sortDescending (satParticipants rp info key)

/-- The `target` of `saturation`:
`repo_info.num_prs * saturation_threshold_percentage / 100`. -/
def satTarget (thresh : Nat) (info : RepoInfo) : Nat :=
  info.num_prs * thresh / 100

/-- The pairs `saturation` pushes onto `output` before formatting. -/
def satTaken (rp : RepoParticipants) (thresh : Nat) (info : RepoInfo)
    (key : RepoParticipant → Nat) : List (Nat × String) :=
  satPrefix (satTarget thresh info) 0 (satSorted rp info key)

lemma sumCounts_nil : sumCounts [] = 0 := rfl

lemma sumCounts_cons (e : Nat × String) (l : List (Nat × String)) :
    sumCounts (e :: l) = e.1 + sumCounts l := by
  simp [sumCounts]

lemma satPrefix_isPrefix (t a : Nat) (l : List (Nat × String)) :
    satPrefix t a l <+: l := by
  induction l generalizing a with
  | nil => simp [satPrefix]
  | cons hd tl ih =>
    obtain ⟨c, name⟩ := hd
    simp only [satPrefix]
    split
    · exact ⟨tl, rfl⟩
    · exact (List.cons_prefix_cons).mpr ⟨rfl, ih (a + c)⟩

lemma satPrefix_exceeds_or_all (t : Nat) (l : List (Nat × String)) (a : Nat) :
    t < a + sumCounts (satPrefix t a l) ∨ satPrefix t a l = l := by
  induction l generalizing a with
  | nil => exact Or.inr rfl
  | cons hd tl ih =>
    obtain ⟨c, name⟩ := hd
    simp only [satPrefix]
    by_cases h : t < a + c
    · left
      simp only [if_pos h, sumCounts_cons, sumCounts_nil]
      omega
    · rcases ih (a + c) with h2 | h2
      · left
        simp only [if_neg h, sumCounts_cons]
        omega
      · right
        rw [if_neg h, h2]

lemma satPrefix_minimal (t : Nat) (l : List (Nat × String)) (a : Nat)
    (ha : a ≤ t) :
    ∀ pre, pre <+: satPrefix t a l → pre ≠ satPrefix t a l →
      a + sumCounts pre ≤ t := by
  induction l generalizing a with
  | nil =>
    intro pre hpre hne
    rw [List.prefix_nil.mp hpre] at hne
    exact absurd rfl hne
  | cons hd tl ih =>
    obtain ⟨c, name⟩ := hd
    intro pre hpre hne
    match pre with
    | [] => simpa [sumCounts_nil] using ha
    | e :: pre' =>
      simp only [satPrefix] at hpre hne
      obtain ⟨he, hpre'⟩ := List.cons_prefix_cons.mp hpre
      by_cases h : t < a + c
      · rw [if_pos h] at hpre' hne
        rw [List.prefix_nil.mp hpre', he] at hne
        exact absurd rfl hne
      · rw [if_neg h] at hpre' hne
        have hne' : pre' ≠ satPrefix t (a + c) tl := by
          intro hcontra
          exact hne (by rw [hcontra, he])
        have := ih (a + c) (by omega) pre' hpre' hne'
        rw [he, sumCounts_cons]
        omega

/-- Repository of the spec scenario: 10 PRs. -/
def scenario_info : RepoInfo :=
  { row := 1, org := "org", repo := "repo", num_prs := 10, num_opened := 0,
    num_closed := 0, start := "2024-01-01", end_ := "2024-02-01" }

/-- Participants of the spec scenario: alice participated in 5 PRs, bob in 3,
carol in 2. -/
def scenario_participants : RepoParticipants :=
  ⟨[{ row := 1, participant := "alice", repo := "repo", participated_in := 5,
      authored := 0, reviewed := 0, resolved := 0 },
    { row := 2, participant := "bob", repo := "repo", participated_in := 3,
      authored := 0, reviewed := 0, resolved := 0 },
    { row := 3, participant := "carol", repo := "repo", participated_in := 2,
      authored := 0, reviewed := 0, resolved := 0 }]⟩

/-- Claim C2: `saturation` sorts the repository's participants descending by
metric value (ties broken deterministically, by login descending), appends a
`"login (percent%)"` entry for each participant in that order, and stops right
after the first entry whose inclusion makes the running total strictly exceed
`num_prs * threshold_percent / 100`; if no prefix exceeds that target it
returns the full list, and it never returns more entries than there are
participants.  The last conjunct checks the spec scenario: with 10 PRs,
threshold 50% and counts alice 5, bob 3, carol 2, the result is
`"alice (50%), bob (30%)"` with 2 entries. -/
theorem saturation_spec (rp : RepoParticipants) (thresh : Nat)
    (info : RepoInfo) (key : RepoParticipant → Nat) :
    saturation rp thresh info key =
        (String.intercalate ", "
          ((satTaken rp thresh info key).map (fmt_entry info.num_prs)),
          (satTaken rp thresh info key).length)
      ∧ (satSorted rp info key).Perm (satParticipants rp info key)
      ∧ List.Pairwise (fun a b : Nat × String => b.1 ≤ a.1) (satSorted rp info key)
      ∧ (satTaken rp thresh info key).length ≤ (rp.in_repo info).length
      ∧ (satTarget thresh info < sumCounts (satTaken rp thresh info key) ∨
          satTaken rp thresh info key = satSorted rp info key)
      ∧ (∀ pre, pre <+: satTaken rp thresh info key →
          pre ≠ satTaken rp thresh info key → sumCounts pre ≤ satTarget thresh info)
      ∧ saturation scenario_participants 50 scenario_info
          (fun p => p.participated_in) = ("alice (50%), bob (30%)", 2) := by
  have hperm : (satSorted rp info key).Perm (satParticipants rp info key) :=
    List.perm_insertionSort saturationOrder (satParticipants rp info key)
  refine ⟨?_, hperm, ?_, ?_, ?_, ?_, ?_⟩
  · simp only [saturation, satTaken, satSorted, satParticipants, satTarget,
      List.length_map]
  · exact List.Pairwise.imp
      (fun hab => by
        rcases hab with h | ⟨e, _⟩
        · exact Nat.le_of_lt h
        · exact Nat.le_of_eq e.symm)
      (List.sorted_insertionSort saturationOrder (satParticipants rp info key))
  · calc (satTaken rp thresh info key).length
        ≤ (satSorted rp info key).length := (satPrefix_isPrefix _ _ _).length_le
      _ = (satParticipants rp info key).length := hperm.length_eq
      _ = (rp.in_repo info).length := List.length_map _ _
  · simpa [satTaken] using
      satPrefix_exceeds_or_all (satTarget thresh info) (satSorted rp info key) 0
  · intro pre hpre hne
    simpa using satPrefix_minimal (satTarget thresh info) (satSorted rp info key)
      0 (Nat.zero_le _) pre hpre hne
  · decide

/-- Witness for `saturation_spec`: at the spec scenario, the minimality
conjunct instantiated at the proper prefix `[(5, "alice")]` shows its sum
does not yet exceed the target. -/
theorem saturation_spec_witness :
    sumCounts [(5, "alice")] ≤ satTarget 50 scenario_info :=
  (saturation_spec scenario_participants 50 scenario_info
      (fun p => p.participated_in)).2.2.2.2.2.1 [(5, "alice")]
    ⟨[(3, "bob")], rfl⟩ (by decide)

/-- `Iterator::max_by_key` as used by `RepoParticipants::top_participant`
(`src/report/repo_participant.rs` line 87): `none` on an empty iterator, and
when several elements have the maximal key the last one wins. -/
def max_by_key (key : RepoParticipant → Nat) (l : List RepoParticipant) :
    Option RepoParticipant :=
  l.foldl
    (fun acc p =>
      match acc with
      | none => some p
      | some q => if key p < key q then some q else some p)
    none

/-- `RepoParticipants::top_participant` from `src/report/repo_participant.rs`
lines 82-91. -/
def RepoParticipants.top_participant (self : RepoParticipants)
    (repo_info : RepoInfo) (key : RepoParticipant → Nat) : String × Nat :=
  match max_by_key key (self.in_repo repo_info) with
  | some p => (p.participant, percentage (key p) repo_info.num_prs)
  | none => ("N/A", 0)

/-- `RepoInfos` from `src/report/repo_info.rs` lines 11-14: the
`HashMap<String, RepoInfo>` keyed by repository name is modelled as an
association list. -/
structure RepoInfos where
  repos : List (String × RepoInfo)

/-- `RepoInfos::get` from `src/report/repo_info.rs` lines 88-90:
`&self.repos[repo]` indexes the map directly and panics when the key is
absent; `none` models that panic branch. -/
def RepoInfos.get (self : RepoInfos) (repo : String) : Option RepoInfo :=
  self.repos.lookup repo

/-- `ReportData` from `src/report.rs` lines 34-39 (the `top_crates` field is
not consulted by the high-contributor computation and is omitted). -/
structure ReportData where
  repo_participants : RepoParticipants
  repo_infos : RepoInfos

/-- `HighContributorRow` from `src/report/high_contributor.rs` lines 9-28. -/
structure HighContributorRow where
  repo : String
  number_of_prs : Nat
  total_participants : Nat
  total_authors : Nat
  total_reviewers : Nat
  top_author : String
  top_author_percentage : Nat
  top_reviewer : String
  top_reviewer_percentage : Nat
  top_participant : String
  top_participant_percentage : Nat
  saturation_authors : Nat
  saturation_author_names : String
  saturation_reviewers : Nat
  saturation_reviewer_names : String
  high_contributors : Nat
  high_contributor_names : String

/-- `Report::high_contributor_row` from `src/report/high_contributor.rs`
lines 55-134.  The result is `none` exactly when `RepoInfos::get` would
panic on a repository name missing from the parsed map; every other step is
total. -/
def high_contributor_row (config : ReportConfig) (data : ReportData)
    (repo : String) : Option HighContributorRow :=
  match data.repo_infos.get repo with
  | none => none
  | some repo_info =>
    let top_author_pair :=
      data.repo_participants.top_participant repo_info fun p => p.authored
    let top_reviewer_pair :=
      data.repo_participants.top_participant repo_info fun p =>
        p.reviewed_or_resolved
    let saturation_reviewer_pair :=
      saturation data.repo_participants
        config.high_contributor.reviewer_saturation_threshold repo_info
        fun p => p.reviewed_or_resolved
    let saturation_author_pair :=
      saturation data.repo_participants
        config.high_contributor.author_saturation_threshold repo_info
        fun p => p.authored
    let top_participant_pair :=
      data.repo_participants.top_participant repo_info fun p => p.participated_in
    let total_authors :=
      ((data.repo_participants.in_repo repo_info).filter fun p =>
        decide (p.authored > 0)).length
    let total_participants :=
      ((data.repo_participants.in_repo repo_info).filter fun p =>
        decide (p.participated_in > 0)).length
    let total_reviewers :=
      ((data.repo_participants.in_repo repo_info).filter fun p =>
        decide (p.reviewed_or_resolved > 0)).length
    let high_contributors :=
      (data.repo_participants.in_repo repo_info).filter fun p =>
        repo_info.is_high_contributor config p
    some
      { repo := repo
        number_of_prs := repo_info.num_prs
        total_authors := total_authors
        total_participants := total_participants
        total_reviewers := total_reviewers
        top_author := top_author_pair.1
        top_author_percentage := top_author_pair.2
        top_reviewer := top_reviewer_pair.1
        top_reviewer_percentage := top_reviewer_pair.2
        top_participant := top_participant_pair.1
        top_participant_percentage := top_participant_pair.2
        saturation_reviewer_names := saturation_reviewer_pair.1
        saturation_reviewers := saturation_reviewer_pair.2
        saturation_author_names := saturation_author_pair.1
        saturation_authors := saturation_author_pair.2
        high_contributors := high_contributors.length
        high_contributor_names :=
          String.intercalate "," (high_contributors.map fun p => p.participant) }

/-- `Report::high_contributor_rows` from `src/report/high_contributor.rs`
lines 42-53: one row per repository listed in the report configuration. -/
def high_contributor_rows (config : ReportConfig) (data : ReportData) :
    List (Option HighContributorRow) :=
  config.github.repos.map (high_contributor_row config data)

lemma lookup_eq_none_iff (l : List (String × RepoInfo)) (k : String) :
    l.lookup k = none ↔ k ∉ l.map Prod.fst := by
  induction l with
  | nil => simp [List.lookup]
  | cons hd tl ih =>
    obtain ⟨k', v⟩ := hd
    by_cases h : k = k'
    · simp [List.lookup, h]
    · simp only [List.lookup, beq_eq_false_iff_ne.mpr h, List.map_cons,
        List.mem_cons, not_or]
      rw [ih]
      exact ⟨fun hn => ⟨h, hn⟩, fun hn => hn.2⟩

/-- Claim C10: `RepoInfos::get` indexes the underlying map directly and hits
its panic branch exactly for repository names absent from the parsed
repo-infos data; under the precondition that every repository of the report
configuration occurs as a key of the map, the panic branch is unreachable in
`high_contributor_row` (and hence in `high_contributor_rows`, which calls it
once per configured repository). -/
theorem repo_infos_get_spec (config : ReportConfig) (data : ReportData)
    (hkeys : ∀ r ∈ config.github.repos, r ∈ data.repo_infos.repos.map Prod.fst) :
    (∀ repo, data.repo_infos.get repo = none ↔
        repo ∉ data.repo_infos.repos.map Prod.fst)
      ∧ (∀ repo ∈ config.github.repos,
          (high_contributor_row config data repo).isSome = true)
      ∧ (∀ row ∈ high_contributor_rows config data, row.isSome = true) := by
  have hget : ∀ repo ∈ config.github.repos,
      (high_contributor_row config data repo).isSome = true := by
    intro repo hr
    have hne : data.repo_infos.get repo ≠ none := fun hnone =>
      ((lookup_eq_none_iff _ _).mp hnone) (hkeys repo hr)
    obtain ⟨ri, hri⟩ := Option.ne_none_iff_exists'.mp hne
    simp [high_contributor_row, hri]
  refine ⟨fun repo => lookup_eq_none_iff _ _, hget, ?_⟩
  intro row hrow
  obtain ⟨repo, hrepo, hmap⟩ := List.mem_map.mp hrow
  exact hmap ▸ hget repo hrepo

/-- Sample configuration used to witness `repo_infos_get_spec`. -/
def sample_config : ReportConfig :=
  { github := { org := "org", repos := ["repo"] }
    high_contributor :=
      { high_reviewer_min_percentage := 10, high_reviewer_min_prs := 5
        reviewer_saturation_threshold := 80, author_saturation_threshold := 80
        high_participant_min_percentage := 10, high_participant_min_prs := 5
        high_author_min_percentage := 10, high_author_min_prs := 5
        high_contributor_categories_threshold := 2 } }

/-- Sample report data used to witness `repo_infos_get_spec`. -/
def sample_data : ReportData :=
  { repo_participants := scenario_participants
    repo_infos := ⟨[("repo", scenario_info)]⟩ }

/-- Witness for `repo_infos_get_spec` at concrete inputs. -/
theorem repo_infos_get_spec_witness :
    (high_contributor_row sample_config sample_data "repo").isSome = true :=
  (repo_infos_get_spec sample_config sample_data (by decide)).2.1 "repo" (by decide)

/-- `ParticipantCounts` from `src/metrics/repo_participants.rs` lines 92-98. -/
structure ParticipantCounts where
  participated_in : Nat
  authored : Nat
  reviewed : Nat
  resolved : Nat
deriving DecidableEq

/-- The `Default` instance used by `counts.entry(login).or_default()`. -/
def ParticipantCounts.zero : ParticipantCounts :=
  { participated_in := 0, authored := 0, reviewed := 0, resolved := 0 }

/-- The `reviews` connection of one pull request in the
`PrsAndParticipants` response (`src/metrics/repo_participants.rs` lines
196-224).  An outer `none` in `nodes` is a null review-node slot; the inner
`Option String` is the review author's login, `none` when the author is
absent or is not a `User`. -/
structure Reviews where
  nodes : Option (List (Option (Option String)))
  total_count : Nat
deriving DecidableEq

/-- One pull request of the `PrsAndParticipants` response, as consumed by
`pr_participants` (`src/metrics/repo_participants.rs` lines 149-237).
`author` and `merged_by` are the logins extracted by the `User` matches at
lines 156-161 and 232-237 (`none` when the field is absent or not a `User`);
`participant_edges` is `pr.participants.edges` (outer `none` = null edge,
inner `none` = null node, the `String` being `participant.login`);
`reviews = none` models a response whose `reviews` field is absent, on which
`pr.reviews.unwrap()` panics. -/
structure PullRequest where
  author : Option String
  participant_edges : Option (List (Option (Option String)))
  participants_total_count : Nat
  reviews : Option Reviews
  merged_by : Option String
deriving DecidableEq

/-- The failure modes of `pr_participants`: the two
`anyhow::bail!("FIXME: pagination support for participants list")` calls at
lines 191-193 and 222-224 (both carry that same message), and the
`pr.reviews.unwrap()` panic at line 196. -/
inductive AggError where
  | pagination_participants
  | pagination_reviews
  | missing_reviews
deriving DecidableEq

/-- The non-null participant logins iterated at lines 170-184: edges,
flattened twice, mapped to nodes and flattened again. -/
def participant_logins (pr : PullRequest) : List String :=
  ((pr.participant_edges.getD []).filterMap id).filterMap id

/-- `participants_found`: the `inspect` counter at line 178 counts exactly
the non-null participant nodes. -/
def participants_found (pr : PullRequest) : Nat :=
  (participant_logins pr).length

/-- The review node slots iterated at lines 199-214. -/
def review_nodes (r : Reviews) : List (Option (Option String)) :=
  r.nodes.getD []

/-- `reviews_found`: the `inspect` counter at line 203 sits before the
second flatten, so it counts every node slot, null ones included. -/
def reviews_found (r : Reviews) : Nat :=
  (review_nodes r).length

/-- The `HashSet` of reviewer logins built at lines 199-214: non-null nodes
whose author is a `User`, deduplicated. -/
def reviewers (r : Reviews) : List String :=
  (((review_nodes r).filterMap id).filterMap id).dedup

/-- `counts.entry(login).or_default()` followed by a field increment: the
`HashMap<String, ParticipantCounts>` is modelled as a total function that
defaults to zero, updated pointwise. -/
def bump (counts : String → ParticipantCounts) (login : String)
    (f : ParticipantCounts → ParticipantCounts) : String → ParticipantCounts :=
  Function.update counts login (f (counts login))

def incParticipated (c : ParticipantCounts) : ParticipantCounts :=
  { c with participated_in := c.participated_in + 1 }

def incAuthored (c : ParticipantCounts) : ParticipantCounts :=
  { c with authored := c.authored + 1 }

def incReviewed (c : ParticipantCounts) : ParticipantCounts :=
  { c with reviewed := c.reviewed + 1 }

def incResolved (c : ParticipantCounts) : ParticipantCounts :=
  { c with resolved := c.resolved + 1 }

/-- The body of the `for pr_edge in ...` loop of `pr_participants`
(`src/metrics/repo_participants.rs` lines 149-237), processing one pull
request against the running counts.  `is_author(s)` is `author = some s`. -/
def pr_participants_step (counts : String → ParticipantCounts)
    (pr : PullRequest) : Except AggError (String → ParticipantCounts) :=
  let author := pr.author
  let counts1 :=
    (participant_logins pr).foldl
      (fun m login => if author = some login then m
        else bump m login incParticipated)
      counts
  if participants_found pr ≠ pr.participants_total_count then
    .error AggError.pagination_participants
  else
    match pr.reviews with
    | none => .error AggError.missing_reviews
    | some reviews =>
      let counts2 :=
        (reviewers reviews).foldl
          (fun m reviewer => if author = some reviewer then m
            else bump m reviewer incReviewed)
          counts1
      if reviews_found reviews ≠ reviews.total_count then
        .error AggError.pagination_reviews
      else
        let counts3 :=
          match author with
          | some a => bump counts2 a incAuthored
          | none => counts2
        let counts4 :=
          match pr.merged_by with
          | some a => bump counts3 a incResolved
          | none => counts3
        .ok counts4

/-- The aggregation loop of `pr_participants` over a sequence of pull
requests (the pages of the search already concatenated), starting from the
given counts. -/
def pr_participants_counts (counts : String → ParticipantCounts) :
    List PullRequest → Except AggError (String → ParticipantCounts)
  | [] => .ok counts
  | pr :: rest =>
    match pr_participants_step counts pr with
    | .ok counts' => pr_participants_counts counts' rest
    | .error e => .error e

/-- `pr_participants` for one repository: every login starts at zero counts.
The final step of the Rust function (lines 247-249) additionally sorts the
`(login, counts)` pairs into a vector; the claims are about the counts
themselves. -/
def pr_participants (prs : List PullRequest) :
    Except AggError (String → ParticipantCounts) :=
  pr_participants_counts (fun _ => ParticipantCounts.zero) prs

/-- Whether an `Except` result is a success. -/
def exceptIsOk {ε α : Type} : Except ε α → Bool
  | .ok _ => true
  | .error _ => false

/-- Occurrence count of a login in a list (used to state the spec-side
contribution; plain structural recursion). -/
def countOcc (a : String) : List String → Nat
  | [] => 0
  | b :: l => countOcc a l + (if b = a then 1 else 0)

def addCounts (a b : ParticipantCounts) : ParticipantCounts :=
  { participated_in := a.participated_in + b.participated_in
    authored := a.authored + b.authored
    reviewed := a.reviewed + b.reviewed
    resolved := a.resolved + b.resolved }

/-- From the spec's per-pull-request algorithm (the reference side of the
refinement, following the spec's words): each participant entry whose login
is not the author adds one `participated_in`; each distinct reviewer login
other than the author adds one `reviewed`; a present author adds one
`authored`; a present merger adds one `resolved`. -/
def specPrContribution (pr : PullRequest) (login : String) : ParticipantCounts :=
  { participated_in :=
      if pr.author = some login then 0
      else countOcc login (participant_logins pr)
    authored := if pr.author = some login then 1 else 0
    reviewed :=
      if pr.author ≠ some login ∧ login ∈ (pr.reviews.elim [] reviewers) then 1
      else 0
    resolved := if pr.merged_by = some login then 1 else 0 }

/-- The spec-side totals over a sequence of pull requests. -/
def specTotal (prs : List PullRequest) (login : String) : ParticipantCounts :=
  prs.foldl (fun acc pr => addCounts acc (specPrContribution pr login))
    ParticipantCounts.zero

lemma bump_apply (m : String → ParticipantCounts) (x login : String)
    (f : ParticipantCounts → ParticipantCounts) :
    bump m x f login = if login = x then f (m x) else m login :=
  Function.update_apply m x (f (m x)) login

lemma foldl_bump_apply (inc : ParticipantCounts → ParticipantCounts)
    (author : Option String) (logins : List String)
    (m : String → ParticipantCounts) (login : String) :
    (logins.foldl
        (fun m x => if author = some x then m else bump m x inc) m) login
      = inc^[if author = some login then 0 else countOcc login logins]
          (m login) := by
  induction logins generalizing m with
  | nil => by_cases h : author = some login <;> simp [countOcc, h]
  | cons x xs ih =>
    rw [List.foldl_cons, ih]
    by_cases hal : author = some login
    · rw [if_pos hal, if_pos hal, Function.iterate_zero_apply,
        Function.iterate_zero_apply]
      by_cases hax : author = some x
      · rw [if_pos hax]
      · have hlx : ¬ login = x := fun he => hax (by rw [← he]; exact hal)
        rw [if_neg hax, bump_apply, if_neg hlx]
    · rw [if_neg hal, if_neg hal]
      by_cases hax : author = some x
      · have hxl : ¬ x = login := fun he => hal (he ▸ hax)
        rw [if_pos hax]
        simp [countOcc, hxl]
      · rw [if_neg hax, bump_apply]
        by_cases hlx : login = x
        · subst hlx
          rw [if_pos rfl]
          simp only [countOcc, if_pos rfl]
          exact (Function.iterate_succ_apply inc _ _).symm
        · rw [if_neg hlx]
          have hxl : ¬ x = login := fun he => hlx he.symm
          simp [countOcc, hxl]

lemma incParticipated_iterate (n : Nat) (c : ParticipantCounts) :
    incParticipated^[n] c = { c with participated_in := c.participated_in + n } := by
  induction n with
  | zero => rfl
  | succ k ih => rw [Function.iterate_succ_apply', ih]; simp [incParticipated, Nat.add_assoc]

lemma incReviewed_iterate (n : Nat) (c : ParticipantCounts) :
    incReviewed^[n] c = { c with reviewed := c.reviewed + n } := by
  induction n with
  | zero => rfl
  | succ k ih => rw [Function.iterate_succ_apply', ih]; simp [incReviewed, Nat.add_assoc]

lemma countOcc_nodup (l : List String) (hl : l.Nodup) (a : String) :
    countOcc a l = if a ∈ l then 1 else 0 := by
  induction l with
  | nil => simp [countOcc]
  | cons b bl ih =>
    obtain ⟨hb, hbl⟩ := List.nodup_cons.mp hl
    by_cases hab : b = a
    · subst hab
      simp [countOcc, ih hbl, hb]
    · have hba : ¬ a = b := fun h => hab h.symm
      simp [countOcc, ih hbl, hab, hba, List.mem_cons]

/-- One-pull-request version of claim C3: a successful step adds exactly the
spec contribution to every login's counts. -/
lemma pr_participants_step_spec (counts : String → ParticipantCounts)
    (pr : PullRequest) (counts' : String → ParticipantCounts)
    (h : pr_participants_step counts pr = .ok counts') (login : String) :
    counts' login = addCounts (counts login) (specPrContribution pr login) := by
  simp only [pr_participants_step] at h
  split at h
  · exact absurd h (by simp)
  · rename_i hpc
    split at h
    · exact absurd h (by simp)
    · rename_i revs hrev
      split at h
      · exact absurd h (by simp)
      · rename_i hrc
        injection h with h4
        subst h4
        have hrevmem : pr.reviews.elim [] reviewers = reviewers revs := by
          rw [hrev]; rfl
        have hcnt := countOcc_nodup (reviewers revs) (List.nodup_dedup _)
        rcases ha : pr.author with _ | a <;> rcases hm : pr.merged_by with _ | m <;>
          simp only [bump_apply, foldl_bump_apply, hcnt]
        · by_cases hrl : login ∈ reviewers revs <;>
            simp [hrl, hcnt, incReviewed, incParticipated,
              incReviewed_iterate, incParticipated_iterate,
              specPrContribution, addCounts, ha, hm, hrevmem]
        · by_cases hml : login = m <;> by_cases hrl : login ∈ reviewers revs <;>
            simp [hrl, hml, hcnt, bump_apply, incReviewed, incParticipated,
              incReviewed_iterate, incParticipated_iterate, incResolved,
              specPrContribution, addCounts, ha, hm, hrevmem] <;>
            exact fun h => hml h.symm
        · by_cases hla : login = a <;> by_cases hrl : login ∈ reviewers revs <;>
            simp [hrl, hla, hcnt, bump_apply, incReviewed, incParticipated,
              incReviewed_iterate, incParticipated_iterate, incAuthored,
              specPrContribution, addCounts, ha, hm, hrevmem] <;>
            exact fun h => hla h.symm
        · by_cases hla : login = a
          · subst hla
            by_cases hml : login = m
            · subst hml
              by_cases hrl : login ∈ reviewers revs <;>
                simp [hrl, hcnt, bump_apply, incReviewed, incParticipated,
                  incReviewed_iterate, incParticipated_iterate, incAuthored,
                  incResolved, specPrContribution, addCounts, ha, hm, hrevmem]
            · by_cases hrl : login ∈ reviewers revs <;>
                simp [hrl, hml, hcnt, bump_apply, incReviewed, incParticipated,
                  incReviewed_iterate, incParticipated_iterate, incAuthored,
                  incResolved, specPrContribution, addCounts, ha, hm,
                  hrevmem] <;>
                exact fun h => hml h.symm
          · by_cases hml : login = m
            · subst hml
              by_cases hrl : login ∈ reviewers revs <;>
                simp [hrl, hla, hcnt, bump_apply, incReviewed, incParticipated,
                  incReviewed_iterate, incParticipated_iterate, incAuthored,
                  incResolved, specPrContribution, addCounts, ha, hm,
                  hrevmem] <;>
                exact fun h => hla h.symm
            · by_cases hrl : login ∈ reviewers revs <;>
                simp [hrl, hla, hml, hcnt, bump_apply, incReviewed,
                  incParticipated, incReviewed_iterate, incParticipated_iterate,
                  incAuthored, incResolved, specPrContribution, addCounts,
                  ha, hm, hrevmem] <;>
                first
                  | exact fun h => hla h.symm
                  | exact fun h => hml h.symm
                  | exact ⟨fun h => hla h.symm, fun h => hml h.symm⟩

lemma pr_participants_counts_ok (prs : List PullRequest)
    (counts res : String → ParticipantCounts)
    (h : pr_participants_counts counts prs = .ok res) (login : String) :
    res login = prs.foldl
      (fun acc pr => addCounts acc (specPrContribution pr login))
      (counts login) := by
  induction prs generalizing counts with
  | nil =>
    injection h with h'
    subst h'
    rfl
  | cons pr rest ih =>
    simp only [pr_participants_counts] at h
    rcases hstep : pr_participants_step counts pr with e | counts'
    · rw [hstep] at h
      exact absurd h (by simp)
    · rw [hstep] at h
      rw [List.foldl_cons,
        ← pr_participants_step_spec counts pr counts' hstep login]
      exact ih counts' h

/-- Claim C3: whenever the aggregation succeeds, the per-login counts are
exactly the sums of the spec's per-pull-request increments: `participated_in`
for every participant entry whose login differs from the author, `reviewed`
once per distinct non-author reviewer login, `authored` for a present author,
`resolved` for a present merger. -/
theorem pr_participants_agg_spec (prs : List PullRequest)
    (h : exceptIsOk (pr_participants prs) = true) :
    pr_participants prs = .ok (fun login => specTotal prs login) := by
  rcases hagg : pr_participants prs with e | f
  · rw [hagg] at h
    exact absurd h (by simp [exceptIsOk])
  · congr 1
    funext login
    rw [pr_participants_counts_ok prs (fun _ => ParticipantCounts.zero) f hagg login]
    rfl

/-- A concrete pull request exercising every branch of the aggregation: a
null participant edge, a null participant node, a null review-node slot and a
review by a non-`User` author. -/
def pr_ex : PullRequest :=
  { author := some "alice"
    participant_edges := some [some (some "bob"), some (some "carol"), none, some none]
    participants_total_count := 2
    reviews := some { nodes := some [some (some "bob"), none, some none], total_count := 3 }
    merged_by := some "dave" }

/-- Witness for `pr_participants_agg_spec` at a concrete pull request. -/
theorem pr_participants_agg_spec_witness :
    pr_participants [pr_ex] = .ok (fun login => specTotal [pr_ex] login) :=
  pr_participants_agg_spec [pr_ex] (by decide)

lemma step_error_of_bad (pr : PullRequest)
    (hbad : participants_found pr ≠ pr.participants_total_count ∨
      ∃ r, pr.reviews = some r ∧ reviews_found r ≠ r.total_count)
    (c : String → ParticipantCounts) :
    pr_participants_step c pr = .error AggError.pagination_participants ∨
      pr_participants_step c pr = .error AggError.pagination_reviews := by
  simp only [pr_participants_step]
  by_cases hp : participants_found pr ≠ pr.participants_total_count
  · left
    rw [if_pos hp]
  · rcases hbad with hbad | ⟨r, hr, hrc⟩
    · exact absurd hbad hp
    · right
      rw [if_neg hp, hr]
      simp only []
      rw [if_pos hrc]

lemma counts_err_of_mem (prs : List PullRequest) (pr : PullRequest)
    (hmem : pr ∈ prs)
    (herr : ∀ c, pr_participants_step c pr = .error AggError.pagination_participants ∨
      pr_participants_step c pr = .error AggError.pagination_reviews) :
    ∀ counts, exceptIsOk (pr_participants_counts counts prs) = false := by
  induction prs with
  | nil => cases hmem
  | cons hd tl ih =>
    intro counts
    rcases List.mem_cons.mp hmem with he | htl
    · subst he
      rcases herr counts with h | h <;>
        simp [pr_participants_counts, h, exceptIsOk]
    · rcases hstep : pr_participants_step counts hd with e | c'
      · simp [pr_participants_counts, hstep, exceptIsOk]
      · simp only [pr_participants_counts, hstep]
        exact ih htl c'

/-- Claim C4: a pull request whose retrieved participant entries disagree
with the reported participants total, or whose retrieved review-node count
disagrees with the reported reviews total, makes the per-pull-request step
fail with one of the two pagination-unsupported errors, and makes the whole
aggregation of any sequence containing it fail rather than return
under-counted data. -/
theorem pagination_guard_spec (prs : List PullRequest) (pr : PullRequest)
    (counts : String → ParticipantCounts) (hmem : pr ∈ prs)
    (hbad : participants_found pr ≠ pr.participants_total_count ∨
      ∃ r, pr.reviews = some r ∧ reviews_found r ≠ r.total_count) :
    (pr_participants_step counts pr = .error AggError.pagination_participants ∨
      pr_participants_step counts pr = .error AggError.pagination_reviews)
    ∧ exceptIsOk (pr_participants prs) = false :=
  ⟨step_error_of_bad pr hbad counts,
    counts_err_of_mem prs pr hmem (step_error_of_bad pr hbad) _⟩

/-- A pull request with a truncated participants list: one entry retrieved,
five reported. -/
def pr_bad : PullRequest :=
  { author := some "alice"
    participant_edges := some [some (some "bob")]
    participants_total_count := 5
    reviews := some { nodes := some [], total_count := 0 }
    merged_by := none }

/-- Witness for `pagination_guard_spec` at a concrete truncated pull
request. -/
theorem pagination_guard_spec_witness :
    (pr_participants_step (fun _ => ParticipantCounts.zero) pr_bad =
        .error AggError.pagination_participants ∨
      pr_participants_step (fun _ => ParticipantCounts.zero) pr_bad =
        .error AggError.pagination_reviews)
    ∧ exceptIsOk (pr_participants [pr_bad]) = false :=
  pagination_guard_spec [pr_bad] pr_bad (fun _ => ParticipantCounts.zero)
    (by decide) (Or.inl (by decide))

/-- `pageInfo` of the `OrgRepos` response (`src/metrics/util.rs` lines
53-57). -/
structure PageInfo where
  has_next_page : Bool
  end_cursor : Option String

/-- A repository node of the `OrgRepos` response; `name` is the field pushed
at `src/metrics/util.rs` line 48. -/
structure NodeData where
  name : String

/-- One edge of the `OrgRepos` response; a `none` node is a null node. -/
structure EdgeData where
  node : Option NodeData

/-- `org_data.repositories` of the `OrgRepos` response: the optional edges
vector and the page info consumed by the loop at `src/metrics/util.rs` lines
42-57. -/
structure OrgData where
  edges : Option (List (Option EdgeData))
  page_info : PageInfo

/-- The top level of one `OrgRepos` response: `organization` is `none` when
the organization was not found. -/
structure OrgReposResponseData where
  organization : Option OrgData

/-- One answer of the transport to one paged query: a failed request (the
`?` on `execute` at `src/metrics/util.rs` line 33), or a response whose
`data` field may be absent. -/
inductive QueryResult where
  | err
  | ok (data : Option OrgReposResponseData)

/-- Failure modes of `all_repos`: a transport error propagated by `?`, or the
`res.data.expect("missing response data")` panic at line 35. -/
inductive AllReposError where
  | transport
  | missing_data
deriving DecidableEq

/-- The names pushed for one page at `src/metrics/util.rs` lines 42-51: one
entry per edge that is present and has a present node. -/
def pageNames (org : OrgData) : List String :=
  (org.edges.getD []).filterMap fun e => (e.bind EdgeData.node).map NodeData.name

/-- `all_repos` from `src/metrics/util.rs` lines 20-61 (the same loop as
`all_repos_graphql` in `src/metrics/all_repos.rs`), over the successive
answers of the transport: append the page's names; break with the
accumulated names when the organization is absent or `has_next_page` is
false; propagate transport errors and panic on absent `data`.  The `[]` case
is a model artifact (the transport always answers in the source); the
theorems' hypotheses end the loop before it is reached. -/
def all_repos : List QueryResult → Except AllReposError (List String)
  | [] => .ok []
  | QueryResult.err :: _ => .error AllReposError.transport
  | QueryResult.ok none :: _ => .error AllReposError.missing_data
  | QueryResult.ok (some response_data) :: rest =>
    match response_data.organization with
    | none => .ok []
    | some org_data =>
      if org_data.page_info.has_next_page then
        match all_repos rest with
        | .ok more => .ok (pageNames org_data ++ more)
        | .error e => .error e
      else .ok (pageNames org_data)

/-- A successful response whose organization is present. -/
def orgPage (o : OrgData) : QueryResult :=
  QueryResult.ok (some { organization := some o })

/-- Claim C6: for every sequence of pages whose last page reports
`hasNextPage = false` (and the earlier ones `true`, so that the loop keeps
fetching), `all_repos` returns exactly the concatenation of all pages' items
in page order, item order preserved within each page. -/
theorem all_repos_concat_spec (front : List OrgData) (last : OrgData)
    (hfront : ∀ p ∈ front, p.page_info.has_next_page = true)
    (hlast : last.page_info.has_next_page = false) :
    all_repos ((front ++ [last]).map orgPage) =
      .ok (((front ++ [last]).map pageNames).flatten) := by
  induction front with
  | nil => simp [all_repos, orgPage, hlast]
  | cons p front ih =>
    have hp := hfront p (List.mem_cons_self _ _)
    have hfront' : ∀ q ∈ front, q.page_info.has_next_page = true :=
      fun q hq => hfront q (List.mem_cons_of_mem _ hq)
    have ih' := ih hfront'
    simp only [List.map_append, List.map_cons, List.map_nil, orgPage] at ih'
    simp only [List.cons_append, List.map_cons, List.map_append, List.map_nil,
      List.append_eq, all_repos, orgPage, hp, if_true]
    rw [ih']
    simp

/-- First page of the paginator witnesses: two edges with nodes, one null
edge, one null node. -/
def witness_page_a : OrgData :=
  { edges := some [some { node := some { name := "repo-one" } }, none,
      some { node := none }]
    page_info := { has_next_page := true, end_cursor := some "cursor1" } }

/-- Final page of the concatenation witness. -/
def witness_page_b : OrgData :=
  { edges := some [some { node := some { name := "repo-two" } }]
    page_info := { has_next_page := false, end_cursor := none } }

/-- Witness for `all_repos_concat_spec` at two concrete pages. -/
theorem all_repos_concat_spec_witness :
    all_repos ([witness_page_a, witness_page_b].map orgPage) =
      .ok ["repo-one", "repo-two"] :=
  (all_repos_concat_spec [witness_page_a] witness_page_b
    (by decide) (by decide)).trans rfl

/-- Claim C7: when some response lacks the matching top-level entity (the
organization is absent), the paginator stops and returns the items
accumulated so far as a successful result — whatever the transport would
have answered afterwards (`rest`), including errors, is never consulted. -/
theorem all_repos_missing_org_spec (front : List OrgData)
    (stop : OrgReposResponseData) (rest : List QueryResult)
    (hfront : ∀ p ∈ front, p.page_info.has_next_page = true)
    (hstop : stop.organization = none) :
    all_repos ((front.map orgPage) ++ QueryResult.ok (some stop) :: rest) =
      .ok ((front.map pageNames).flatten) := by
  induction front with
  | nil => simp [all_repos, hstop]
  | cons p front ih =>
    have hp := hfront p (List.mem_cons_self _ _)
    have hfront' : ∀ q ∈ front, q.page_info.has_next_page = true :=
      fun q hq => hfront q (List.mem_cons_of_mem _ hq)
    simp only [List.cons_append, List.map_cons, List.append_eq, all_repos,
      orgPage, hp, if_true]
    rw [ih hfront']
    simp [List.flatten_cons]

/-- Witness for `all_repos_missing_org_spec`: one real page, then a response
without an organization, then a transport error that is never reached. -/
theorem all_repos_missing_org_spec_witness :
    all_repos ([witness_page_a].map orgPage ++
        QueryResult.ok (some { organization := none }) :: [QueryResult.err]) =
      .ok ["repo-one"] :=
  (all_repos_missing_org_spec [witness_page_a] { organization := none }
    [QueryResult.err] (by decide) rfl).trans rfl

/-- The data rows written by `Print::consume`
(`src/metrics/print.rs` lines 80-91): one record per received row, prefixed
with the running `row_index` that starts at 1. -/
def consume_rows : Nat → List (List String) → List (List String)
  | _, [] => []
  | row_index, entry :: rest =>
    (toString row_index :: entry) :: consume_rows (row_index + 1) rest

/-- `Print::consume` from `src/metrics/print.rs` lines 66-95: the header
record `"#"` followed by the column names, then one record per received row
in receive order (the CSV writer and the final flush are the external sink;
the model collects the records passed to `write_record`). -/
def consume (column_names : List String) (received : List (List String)) :
    List (List String) :=
  ("#" :: column_names) :: consume_rows 1 received

lemma consume_rows_length (i : Nat) (rows : List (List String)) :
    (consume_rows i rows).length = rows.length := by
  induction rows generalizing i with
  | nil => rfl
  | cons r rest ih => simp [consume_rows, ih]

lemma consume_rows_get (i : Nat) (rows : List (List String)) (k : Nat) :
    (consume_rows i rows).get? k =
      (rows.get? k).map fun r => toString (i + k) :: r := by
  induction rows generalizing i k with
  | nil => simp [consume_rows]
  | cons r rest ih =>
    match k with
    | 0 => simp [consume_rows]
    | k + 1 =>
      rw [consume_rows, List.get?_cons_succ, List.get?_cons_succ, ih]
      have : i + 1 + k = i + (k + 1) := by omega
      rw [this]

/-- Claim C9: the consumer writes exactly one header record, `"#"` followed
by the producer's column names, first; and for a producer that sends `K`
rows then closes the channel, exactly `K` further records follow in receive
order, the `i`-th (1-based) being the index `i` followed by the `i`-th
received row's fields. -/
theorem consume_spec (column_names : List String) (rows : List (List String)) :
    (consume column_names rows).head? = some ("#" :: column_names)
    ∧ (consume column_names rows).length = rows.length + 1
    ∧ ∀ k, (consume column_names rows).get? (k + 1) =
        (rows.get? k).map fun r => toString (k + 1) :: r := by
  refine ⟨rfl, by simp [consume, consume_rows_length], fun k => ?_⟩
  rw [consume, List.get?_cons_succ, consume_rows_get]
  have : 1 + k = k + 1 := by omega
  rw [this]

/-- `gather_list_data`'s loop over the fetched repositories
(`src/main.rs` lines 167-186).  The concurrent receiver is modelled by
`alive`, the number of sends it accepts before being dropped; the first
component collects the rows the channel accepted.  Each repository comes
with the result of its `count_pull_requests` call. -/
def gather_send_rows :
    List (String × Except String Nat) → Nat → List (List String) × Except String Unit
  | [], _ => ([], .ok ())
  | (name, .error e) :: _, _ =>
    ([], .error ("Ran into an issue while counting PRs for repository "
      ++ name ++ ": " ++ e))
  | (name, .ok count_prs) :: rest, alive =>
    match alive with
    | 0 => ([], .error "receiver dropped!")
    | a + 1 =>
      ([name, toString count_prs] :: (gather_send_rows rest a).1,
        (gather_send_rows rest a).2)

/-- `gather_list_data` from `src/main.rs` lines 150-189: fail on an
`all_repos` error, else stream one row per repository until a count fails,
the receiver is dropped, or the list is exhausted. -/
def gather_list_data
    (repos_result : Except String (List (String × Except String Nat)))
    (alive : Nat) : List (List String) × Except String Unit :=
  match repos_result with
  | .error e =>
    ([], .error ("Ran into an error while gathering repositories! " ++ e))
  | .ok repos => gather_send_rows repos alive

/-- Counterexample to claim C8 as stated: when the receiver has been dropped
before the first send, the producer's run reports the error
`"receiver dropped!"` — the send failure is surfaced as an error return, not
swallowed. -/
theorem gather_receiver_drop_counterexample :
    gather_list_data (.ok [("repo", .ok 5)]) 0 =
      ([], .error "receiver dropped!") := rfl

/-- Claim C8 (amended): when a send fails because the receiver was dropped,
the producer stops immediately — it emits exactly the rows the channel
accepted and sends nothing further — but its run does report the send
failure as an error (`"receiver dropped!"`); the orchestrator merely logs
that error. -/
theorem gather_send_failure_spec (repos : List (String × Except String Nat))
    (alive : Nat)
    (hok : ∀ x ∈ repos.take (alive + 1), exceptIsOk x.2 = true)
    (hlt : alive < repos.length) :
    (gather_list_data (.ok repos) alive).1.length = alive
    ∧ (gather_list_data (.ok repos) alive).2 = .error "receiver dropped!" := by
  induction repos generalizing alive with
  | nil => exact absurd hlt (by simp)
  | cons hd rest ih =>
    obtain ⟨name, res⟩ := hd
    have hhd : exceptIsOk res = true :=
      hok (name, res) (by simp [List.take_succ_cons])
    rcases res with e | n
    · exact absurd hhd (by simp [exceptIsOk])
    · match alive with
      | 0 => exact ⟨rfl, rfl⟩
      | a + 1 =>
        have hok' : ∀ x ∈ rest.take (a + 1), exceptIsOk x.2 = true :=
          fun x hx => hok x (by simp [List.take_succ_cons, hx])
        have hlt' : a < rest.length := by
          simp only [List.length_cons] at hlt
          omega
        have := ih a hok' hlt'
        simp only [gather_list_data] at this
        exact ⟨by simp [gather_list_data, gather_send_rows, this.1],
          by simp [gather_list_data, gather_send_rows, this.2]⟩

/-- Witness for `gather_send_failure_spec`: two repositories, a receiver
that accepts one row. -/
theorem gather_send_failure_spec_witness :
    (gather_list_data (.ok [("r1", .ok 3), ("r2", .ok 4)]) 1).1.length = 1
    ∧ (gather_list_data (.ok [("r1", .ok 3), ("r2", .ok 4)]) 1).2 =
      .error "receiver dropped!" :=
  gather_send_failure_spec [("r1", .ok 3), ("r2", .ok 4)] 1
    (by decide) (by decide)

end Optopodi
